import Mathlib

/-!
Verification development for the browser-navigation challenge solver
(`solver.js`).  The definitions below are a shallow embedding of the
solver: the code-repository functions (`decrypt`, the JSON parse of the
session blob, and the `codes[step] || codes[29]` lookup) are modelled as
executable Lean functions, and the step-advancement engine (the
120-iteration polling loop) is modelled as a state machine parametrised
over an abstract page environment `Env` that supplies the effects the
engine consumes (reading the URL, waits, navigation mutation, code
submission, the bounded wait-for-advance).
-/

namespace Solver

/-! ### String scanning utilities (url.includes / regex match) -/

/-- Boolean test that `pat` is an initial segment of `l`. -/
def listStartsWith : List Char → List Char → Bool
  | [], _ => true
  | _ :: _, [] => false
  | a :: as, b :: bs => a == b && listStartsWith as bs

/-- Boolean substring search, the embedding of JavaScript
`String.prototype.includes`. -/
def listHasSub (pat : List Char) : List Char → Bool
  | [] => listStartsWith pat []
  | l@(_ :: t) => listStartsWith pat l || listHasSub pat t

/-- Embedding of `url.includes('/finish')`. -/
def urlHasFinish (u : String) : Bool :=
  listHasSub ("/finish".toList) u.toList

/-- Numeric value of a decimal digit string, as `parseInt` computes it on
an all-digit input. -/
def digitsToNat (ds : List Char) : Nat :=
  ds.foldl (fun a c => a * 10 + (c.toNat - '0'.toNat)) 0

/-- Embedding of `url.match(/step(\d+)/)` followed by `parseInt`: scan for
the first occurrence of `"step"` immediately followed by at least one
digit and return the number read from the maximal digit run. -/
def stepNumScan : List Char → Option Nat
  | [] => none
  | c :: t =>
    if listStartsWith ['s', 't', 'e', 'p'] (c :: t) then
      let ds := (t.drop 3).takeWhile Char.isDigit
      if ds.isEmpty then stepNumScan t else some (digitsToNat ds)
    else stepNumScan t

/-- Step number derived from a URL, `none` when no `step<digits>` marker
is present. -/
def stepNumOfUrl (u : String) : Option Nat :=
  stepNumScan u.toList

/-! ### Code repository: base64 + XOR decrypt + JSON parse -/

/-- Value of one base64 alphabet character; `none` for characters outside
the alphabet (Node's base64 decoder skips them, including `=` padding). -/
def b64Val (c : Char) : Option Nat :=
  if 'A' ≤ c ∧ c ≤ 'Z' then some (c.toNat - 'A'.toNat)
  else if 'a' ≤ c ∧ c ≤ 'z' then some (c.toNat - 'a'.toNat + 26)
  else if '0' ≤ c ∧ c ≤ '9' then some (c.toNat - '0'.toNat + 52)
  else if c = '+' then some 62
  else if c = '/' then some 63
  else none

/-- Reassemble bytes from a list of 6-bit base64 values: each full group
of four values yields three bytes, a trailing group of three yields two
bytes and a trailing group of two yields one byte. -/
def b64Chunk : List Nat → List Nat
  | a :: b :: c :: d :: rest =>
      (a * 4 + b / 16) :: ((b % 16) * 16 + c / 4) :: ((c % 4) * 64 + d) :: b64Chunk rest
  | [a, b, c] => [a * 4 + b / 16, (b % 16) * 16 + c / 4]
  | [a, b] => [a * 4 + b / 16]
  | _ => []

/-- Embedding of `Buffer.from(encoded, 'base64')`: byte list decoded from
a base64 string. -/
def base64Decode (s : String) : List Nat :=
  b64Chunk (s.toList.filterMap b64Val)

/-- The fixed XOR key `WO_2024_CHALLENGE` of `solver.js`. -/
def XOR_KEY : String := "WO_2024_CHALLENGE"

/-- Character codes of the XOR key. -/
def keyCodes : List Nat := XOR_KEY.toList.map Char.toNat

/-- Embedding of `decrypt`: base64-decode the blob, XOR every byte with
the key character at the same position modulo the key length, and read
the result back as a string of the resulting character codes. -/
def decrypt (encoded : String) : String :=
  let bytes := base64Decode encoded
  String.mk (bytes.enum.map fun p =>
    Char.ofNat (p.2 ^^^ keyCodes.getD (p.1 % keyCodes.length) 0))

/-! ### JSON parsing (embedding of `JSON.parse`) -/

/-- JSON documents.  Numeric literals keep their lexeme: the solver never
inspects numeric values, only the `codes` string array. -/
inductive Json where
  | null : Json
  | bool (b : Bool) : Json
  | num (lexeme : String) : Json
  | str (s : String) : Json
  | arr (xs : List Json) : Json
  | obj (fields : List (String × Json)) : Json
deriving Repr

/-- The opening object-delimiter character of JSON. -/
def braceOpen : Char := Char.ofNat 123

/-- The closing object-delimiter character of JSON. -/
def braceClose : Char := Char.ofNat 125

/-- Drop JSON whitespace. -/
def skipWs (l : List Char) : List Char :=
  l.dropWhile fun c => c = ' ' ∨ c = '\t' ∨ c = '\n' ∨ c = '\r'

/-- Value of a hexadecimal digit. -/
def hexVal (c : Char) : Option Nat :=
  if '0' ≤ c ∧ c ≤ '9' then some (c.toNat - '0'.toNat)
  else if 'a' ≤ c ∧ c ≤ 'f' then some (c.toNat - 'a'.toNat + 10)
  else if 'A' ≤ c ∧ c ≤ 'F' then some (c.toNat - 'A'.toNat + 10)
  else none

/-- Single-character JSON escapes. -/
def escChar (c : Char) : Option Char :=
  if c = '"' then some '"'
  else if c = '\\' then some '\\'
  else if c = '/' then some '/'
  else if c = 'b' then some (Char.ofNat 8)
  else if c = 'f' then some (Char.ofNat 12)
  else if c = 'n' then some '\n'
  else if c = 'r' then some '\r'
  else if c = 't' then some '\t'
  else none

/-- Parse the body of a JSON string after the opening quote, returning
the string contents and the remaining input. -/
def parseStrBody : Nat → List Char → Option (List Char × List Char)
  | 0, _ => none
  | _ + 1, [] => none
  | f + 1, c :: rest =>
    if c = '"' then some ([], rest)
    else if c = '\\' then
      match rest with
      | [] => none
      | e :: rest2 =>
        if e = 'u' then
          match rest2 with
          | h1 :: h2 :: h3 :: h4 :: rest3 =>
            match hexVal h1, hexVal h2, hexVal h3, hexVal h4 with
            | some a, some b, some c2, some d =>
              (parseStrBody f rest3).map fun pr =>
                (Char.ofNat (((a * 16 + b) * 16 + c2) * 16 + d) :: pr.1, pr.2)
            | _, _, _, _ => none
          | _ => none
        else
          match escChar e with
          | some ec => (parseStrBody f rest2).map fun pr => (ec :: pr.1, pr.2)
          | none => none
    else (parseStrBody f rest).map fun pr => (c :: pr.1, pr.2)

/-- Characters that may occur in a JSON number lexeme. -/
def numChar (c : Char) : Bool :=
  c.isDigit || c = '-' || c = '+' || c = '.' || c = 'e' || c = 'E'

mutual

/-- Parse one JSON value from the input (after an explicit whitespace
skip), returning the value and the remaining input. -/
def parseValue : Nat → List Char → Option (Json × List Char)
  | 0, _ => none
  | f + 1, input =>
    match skipWs input with
    | [] => none
    | c :: rest =>
      if c = '"' then
        (parseStrBody (f + 1) rest).map fun pr => (Json.str (String.mk pr.1), pr.2)
      else if c = braceOpen then parseObjBody f rest true
      else if c = '[' then parseArrBody f rest true
      else if listStartsWith ['t', 'r', 'u', 'e'] (c :: rest) then
        some (Json.bool true, (c :: rest).drop 4)
      else if listStartsWith ['f', 'a', 'l', 's', 'e'] (c :: rest) then
        some (Json.bool false, (c :: rest).drop 5)
      else if listStartsWith ['n', 'u', 'l', 'l'] (c :: rest) then
        some (Json.null, (c :: rest).drop 4)
      else if numChar c then
        let lex := (c :: rest).takeWhile numChar
        some (Json.num (String.mk lex), (c :: rest).drop lex.length)
      else none

/-- Parse the remainder of a JSON array after `[`; `first` is true when no
element has been consumed yet. -/
def parseArrBody : Nat → List Char → Bool → Option (Json × List Char)
  | 0, _, _ => none
  | f + 1, input, first =>
    match skipWs input with
    | [] => none
    | c :: rest =>
      if c = ']' then
        if first then some (Json.arr [], rest) else none
      else
        match parseValue f (c :: rest) with
        | none => none
        | some (v, rest2) =>
          match skipWs rest2 with
          | ']' :: rest3 => some (Json.arr [v], rest3)
          | ',' :: rest3 =>
            match parseArrBody f rest3 false with
            | some (Json.arr vs, rest4) => some (Json.arr (v :: vs), rest4)
            | _ => none
          | _ => none

/-- Parse the remainder of a JSON object after `{`; `first` is true when
no member has been consumed yet. -/
def parseObjBody : Nat → List Char → Bool → Option (Json × List Char)
  | 0, _, _ => none
  | f + 1, input, first =>
    match skipWs input with
    | [] => none
    | c :: rest =>
      if c = braceClose then
        if first then some (Json.obj [], rest) else none
      else if c = '"' then
        match parseStrBody (f + 1) rest with
        | none => none
        | some (key, rest2) =>
          match skipWs rest2 with
          | ':' :: rest3 =>
            match parseValue f rest3 with
            | none => none
            | some (v, rest4) =>
              match skipWs rest4 with
              | [] => none
              | c2 :: rest5 =>
                if c2 = braceClose then some (Json.obj [(String.mk key, v)], rest5)
                else if c2 = ',' then
                  match parseObjBody f rest5 false with
                  | some (Json.obj fs, rest6) =>
                    some (Json.obj ((String.mk key, v) :: fs), rest6)
                  | _ => none
                else none
          | _ => none
      else none

end

/-- Embedding of `JSON.parse`: parse a complete JSON document, requiring
the whole input to be consumed up to trailing whitespace. -/
def parseJson (s : String) : Option Json :=
  let cs := s.toList
  match parseValue (2 * cs.length + 8) cs with
  | some (j, rest) => if skipWs rest = [] then some j else none
  | none => none

/-- Read the `codes` field of the parsed session document as a list of
strings.  `JSON.parse` keeps the last occurrence of a duplicated key;
shapes other than an object carrying an array of strings abort the run
in `solver.js` (property access / `codes.length` throws), so they are
mapped to `none` here. -/
def codesField : Json → Option (List String)
  | Json.obj fs =>
    match (fs.filter fun p => p.1 = "codes").getLast? with
    | some (_, Json.arr xs) =>
      xs.mapM fun j => match j with | Json.str s => some s | _ => none
    | _ => none
  | _ => none

/-- Embedding of the session extraction
`JSON.parse(decrypt(sessionData)).codes`: `none` models the thrown
exception when the blob is absent (`sessionStorage` miss), when the
decoded text is not parseable JSON, or when no usable `codes` array is
present. -/
def extractCodes (blob : Option String) : Option (List String) :=
  match blob with
  | none => none
  | some s => (parseJson (decrypt s)).bind codesField

/-! ### Code lookup (`codes[step] || codes[29]`) -/

/-- JavaScript truthiness of an optional string: `undefined` and the
empty string are falsy. -/
def truthy (o : Option String) : Bool :=
  match o with
  | none => false
  | some s => s != ""

/-- Embedding of the lookup `codes[step] || codes[29]` of `solver.js`:
the entry at `step` when it is truthy, otherwise the entry at the fixed
index 29 (which is itself `none` when the table is shorter). -/
def codeLookup (codes : List String) (step : Nat) : Option String :=
  if truthy codes[step]? then codes[step]? else codes[29]?

/-! ### Step advancement engine -/

/-- One entry of `runStats.stepDetails`: step index, the code used
(`none` models an `undefined` code, the bypass entry carries the sentinel
`N/A (router bypass)`), the per-step elapsed time and the method tag
(`code_submission` or `history.pushState`). -/
structure AttemptRecord where
  step : Nat
  code : Option String
  durationMs : Nat
  method : String
deriving Repr, DecidableEq

/-- Abstract page environment: the browser-driver capabilities the solver
consumes, as state transformers over an opaque page-world state `σ`.
`now` is `Date.now()`; `waitAdvance` is the bounded
`page.waitForURL(..., { timeout: 3500 })`, returning `true` when it
resolved and `false` when it timed out. -/
structure Env (σ : Type) where
  url : σ → String
  now : σ → Nat
  goto : σ → σ
  clickStart : σ → σ
  waitStepUrl : σ → σ
  getSession : σ → Option String
  waitMs : σ → Nat → σ
  bypassNav : σ → σ
  sweep : σ → Nat → σ
  enterCode : σ → Option String → σ
  clickSubmit : σ → σ
  waitAdvance : σ → Nat → σ × Bool
  screenshot : σ → σ

/-- Mutable state of the polling loop: the page world, `lastStep`, the
`stepDetails` log in push order, and the number of polls performed. -/
structure LoopState (σ : Type) where
  page : σ
  lastStep : Nat
  details : List AttemptRecord
  polls : Nat
deriving Repr

/-- The ordinary-path submission pipeline of one iteration: dismissal
sweep, 50 ms settle, framework-compatible code entry, submit click, then
the bounded wait for the location to advance. -/
def submitPipeline (env : Env σ) (code : Option String) (step : Nat) (p : σ) : σ × Bool :=
  let p1 := env.sweep p step
  let p2 := env.waitMs p1 50
  let p3 := env.enterCode p2 code
  let p4 := env.clickSubmit p3
  env.waitAdvance p4 step

/-- One iteration of the `for (let attempt = 0; attempt < 120; ...)` loop
of `solver.js`: finish detection at the head, unknown-location wait,
already-completed-step wait, the step-30 router-bypass branch (falling
through to the ordinary path when verification fails), and the ordinary
submission path with its timeout fallbacks.  The boolean is `true` when
the iteration leaves the loop (`break`). -/
def loopIter (env : Env σ) (codes : List String) (s0 : LoopState σ) : LoopState σ × Bool :=
  let s := { s0 with polls := s0.polls + 1 }
  let u := env.url s.page
  if urlHasFinish u then ({ s with lastStep := 30 }, true)
  else
    match stepNumOfUrl u with
    | none => ({ s with page := env.waitMs s.page 100 }, false)
    | some step =>
      if step ≤ s.lastStep then ({ s with page := env.waitMs s.page 50 }, false)
      else
        let stepStart := env.now s.page
        let pA := if step == 30 then env.waitMs (env.bypassNav s.page) 500 else s.page
        if step == 30 && urlHasFinish (env.url pA) then
          ({ s with
             page := pA
             lastStep := 30
             details := s.details ++
               [⟨30, some ("N/A (router bypass)"), env.now pA - stepStart,
                 "history.pushState"⟩] }, true)
        else
          let code := codeLookup codes step
          let r := submitPipeline env code step pA
          if r.2 then
            ({ s with
               page := r.1
               lastStep := step
               details := s.details ++
                 [⟨step, code, env.now r.1 - stepStart, "code_submission"⟩] }, false)
          else
            let u2 := env.url r.1
            if urlHasFinish u2 then ({ s with page := r.1, lastStep := 30 }, true)
            else
              match stepNumOfUrl u2 with
              | some m =>
                if step < m then
                  ({ s with
                     page := r.1
                     lastStep := step
                     details := s.details ++
                       [⟨step, code, env.now r.1 - stepStart, "code_submission"⟩] }, false)
                else ({ s with page := r.1 }, false)
              | none => ({ s with page := r.1 }, false)

/-- The polling loop, bounded by the iteration budget (`fuel`, 120 in
`solver.js`). -/
def runLoop (env : Env σ) (codes : List String) : Nat → LoopState σ → LoopState σ
  | 0, s => s
  | fuel + 1, s =>
    let r := loopIter env codes s
    if r.2 then r.1 else runLoop env codes fuel r.1

/-- The finalized `runStats` record.  Durations are kept in exact
milliseconds (the source divides by 1000 and rounds to two decimals for
display); the ISO timestamp strings are modelled by the clock values they
are formed from. -/
structure RunStats where
  startTime : Nat
  endTime : Nat
  totalDurationMs : Int
  stepsCompleted : Nat
  totalSteps : Nat
  success : Bool
  stepDetails : List AttemptRecord
deriving Repr, DecidableEq

/-- Finalization of `runStats` after the loop. -/
def mkStats (env : Env σ) (startT : Nat) (final : LoopState σ) : RunStats :=
  { startTime := startT
    endTime := env.now final.page
    totalDurationMs := (env.now final.page : Int) - (startT : Int)
    stepsCompleted := final.lastStep
    totalSteps := 30
    success := final.lastStep == 30
    stepDetails := final.details }

/-- Observable outcome of one solver process run: the finalized stats
(`none` when the run crashed before finalization), whether the screenshot
and the `run_stats.json` file were written, and the process exit status
(0 on normal completion of the async main function; 1 when an exception
escapes it, which is Node's unhandled-rejection exit). -/
structure MainResult where
  stats : Option RunStats
  screenshotWritten : Bool
  statsWritten : Bool
  exitStatus : Nat
deriving Repr, DecidableEq

/-- Page world reached after the landing sequence (`page.goto`, the START
click, and the wait for a `step*` URL). -/
def afterStartup (env : Env σ) (p0 : σ) : σ :=
  env.waitStepUrl (env.clickStart (env.goto p0))

/-- Embedding of the solver's async main function: startup navigation,
session-blob extraction (a decode failure throws and aborts the run
before any output is flushed — there is no try/finally in the source),
the 120-iteration loop, finalization, and the screenshot and stats
writes. -/
def runSolver (env : Env σ) (p0 : σ) : MainResult :=
  let startT := env.now p0
  let p3 := afterStartup env p0
  match extractCodes (env.getSession p3) with
  | none => { stats := none, screenshotWritten := false, statsWritten := false, exitStatus := 1 }
  | some codes =>
    let final := runLoop env codes 120 ⟨p3, 0, [], 0⟩
    { stats := some (mkStats env startT final)
      screenshotWritten := true
      statsWritten := true
      exitStatus := 0 }

/-! ### Concrete simulated targets and session blobs -/

/-- Session blob encrypting `{"codes":["ABC123","DEF456"]}` with the
solver's XOR key. -/
def blobGood : String := "LG08XVRXR315E2MNDgZ/dXZ1Y312dXQAanVqHDE="

/-- Session blob encrypting `{"codes":["","DEF456"]}`: a valid blob whose
decoded code list carries the empty string at position 0. -/
def blobEmptyFirst : String := "LG08XVRXR315E2NuYGcKAgNjemkQbU8="

/-- The code list decoded from `blobGood`. -/
def goodCodes : List String := ["ABC123", "DEF456"]

/-- URL shown by the stuck simulated target at a given step counter. -/
def stuckUrl (c : Nat) : String := "https://site.test/step" ++ toString c

/-- Simulated target stuck at step `k`: state is (current step, clock);
every submission below step `k` advances the location by one step, every
submission at step `k` or beyond times out without progress, and the
terminal location is never reached.  The bypass navigation mutation has
no effect on the location. -/
def stuckEnv (k : Nat) : Env (Nat × Nat) where
  url s := stuckUrl s.1
  now s := s.2
  goto s := s
  clickStart s := s
  waitStepUrl s := s
  getSession _ := some blobGood
  waitMs s n := (s.1, s.2 + n)
  bypassNav s := (s.1, s.2 + 5)
  sweep s _ := (s.1, s.2 + 300)
  enterCode s _ := (s.1, s.2 + 10)
  clickSubmit s := (s.1, s.2 + 10)
  waitAdvance s step := if step < k then ((s.1 + 1, s.2 + 100), true) else ((s.1, s.2 + 3500), false)
  screenshot s := s

/-- Simulated target sitting at step 30 whose location reaches the
terminal marker immediately after the bypass navigation mutation: state
is (bypassed flag, clock). -/
def bypassEnvC : Env (Bool × Nat) where
  url s := if s.1 then ("https://site.test/finish") else ("https://site.test/step30")
  now s := s.2
  goto s := s
  clickStart s := s
  waitStepUrl s := s
  getSession _ := some blobGood
  waitMs s n := (s.1, s.2 + n)
  bypassNav s := (true, s.2 + 5)
  sweep s _ := (s.1, s.2 + 300)
  enterCode s _ := (s.1, s.2 + 10)
  clickSubmit s := (s.1, s.2 + 10)
  waitAdvance s _ := ((s.1, s.2 + 3500), false)
  screenshot s := s

/-- Simulated target whose client-side storage holds no session blob. -/
def noBlobEnv : Env Unit where
  url _ := "https://site.test/step1"
  now _ := 0
  goto s := s
  clickStart s := s
  waitStepUrl s := s
  getSession _ := none
  waitMs s _ := s
  bypassNav s := s
  sweep s _ := s
  enterCode s _ := s
  clickSubmit s := s
  waitAdvance s _ := (s, false)
  screenshot s := s

/-- Simulated target already at the terminal location. -/
def finishEnv : Env Unit where
  url _ := "https://site.test/finish"
  now _ := 0
  goto s := s
  clickStart s := s
  waitStepUrl s := s
  getSession _ := some blobGood
  waitMs s _ := s
  bypassNav s := s
  sweep s _ := s
  enterCode s _ := s
  clickSubmit s := s
  waitAdvance s _ := (s, true)
  screenshot s := s

/-- URL script of the repeat-then-advance simulated target: the location
reads `step5`, again `step5`, then `step6`, then the terminal marker. -/
def seqUrl (p : Nat) : String :=
  if p ≤ 2 then ("https://site.test/step5")
  else if p ≤ 4 then ("https://site.test/step6")
  else ("https://site.test/finish")

/-- Simulated target realizing the location sequence
`step5 -> step5 -> step6`: state is (script position, clock); waits and
resolved submissions advance the script position. -/
def seqEnv : Env (Nat × Nat) where
  url s := seqUrl s.1
  now s := s.2
  goto s := s
  clickStart s := s
  waitStepUrl s := s
  getSession _ := some blobGood
  waitMs s n := (s.1 + 1, s.2 + n)
  bypassNav s := (s.1, s.2 + 5)
  sweep s _ := (s.1, s.2 + 300)
  enterCode s _ := (s.1, s.2 + 10)
  clickSubmit s := (s.1, s.2 + 10)
  waitAdvance s _ := ((s.1 + 1, s.2 + 100), true)
  screenshot s := s

/-- A code table of 29 entries. -/
def table29 : List String :=
  (List.range 29).map fun i => "C" ++ toString (i + 1)

/-- A code table of 30 entries. -/
def table30 : List String :=
  (List.range 30).map fun i => "C" ++ toString (i + 1)

/-- A 30-entry code table whose first entry is the empty string. -/
def tableE : List String :=
  "" :: (List.range 29).map fun i => "E" ++ toString (i + 1)

/-- Invariant maintained by continuing iterations: every logged record's
step index is bounded by `lastStep`, and the logged step indices are
strictly increasing in push order. -/
def RecInv (s : LoopState σ) : Prop :=
  (∀ r ∈ s.details, r.step ≤ s.lastStep) ∧
  s.details.Pairwise (fun a b => a.step < b.step)

/-- A page environment whose clock never runs backwards across the
operations the loop performs. -/
def TimeMono (env : Env σ) : Prop :=
  (∀ p n, env.now p ≤ env.now (env.waitMs p n)) ∧
  (∀ p, env.now p ≤ env.now (env.bypassNav p)) ∧
  (∀ p n, env.now p ≤ env.now (env.sweep p n)) ∧
  (∀ p c, env.now p ≤ env.now (env.enterCode p c)) ∧
  (∀ p, env.now p ≤ env.now (env.clickSubmit p)) ∧
  (∀ p n, env.now p ≤ env.now (env.waitAdvance p n).1)

/-! ### Helper lemmas about the loop -/

theorem loopIter_polls (env : Env σ) (codes : List String) (s : LoopState σ) :
    (loopIter env codes s).1.polls = s.polls + 1 := by
  unfold loopIter
  dsimp only
  repeat' split
  all_goals rfl

theorem runLoop_polls_le (env : Env σ) (codes : List String) :
    ∀ (fuel : Nat) (s : LoopState σ), (runLoop env codes fuel s).polls ≤ s.polls + fuel := by
  intro fuel
  induction fuel with
  | zero => intro s; simp [runLoop]
  | succ f ih =>
    intro s
    have hp := loopIter_polls env codes s
    unfold runLoop
    dsimp only
    split
    · omega
    · have := ih (loopIter env codes s).1
      omega

theorem loopIter_spec (env : Env σ) (codes : List String) (s : LoopState σ)
    (hbd : ∀ r ∈ s.details, r.step ≤ s.lastStep)
    (hpw : s.details.Pairwise (fun a b => a.step < b.step)) :
    ((loopIter env codes s).2 = false →
      ∀ r ∈ (loopIter env codes s).1.details, r.step ≤ (loopIter env codes s).1.lastStep) ∧
    (loopIter env codes s).1.details.Pairwise (fun a b => a.step < b.step) := by
  unfold loopIter
  dsimp only
  repeat' split
  all_goals simp only [Bool.and_eq_true, beq_iff_eq] at *
  all_goals constructor
  all_goals first
    | (intro hc; exact absurd hc (by decide))
    | (intro hc; exact hbd)
    | exact hpw
    | (intro hc r hr
       rcases List.mem_append.1 hr with h | h
       · have := hbd r h
         omega
       · simp only [List.mem_singleton] at h
         subst h
         dsimp only
         omega)
    | (refine List.pairwise_append.2 ⟨hpw, List.pairwise_singleton _ _, ?_⟩
       intro a ha b hb
       simp only [List.mem_singleton] at hb
       subst hb
       have h2 := hbd a ha
       dsimp only
       omega)

theorem runLoop_pairwise (env : Env σ) (codes : List String) :
    ∀ (fuel : Nat) (s : LoopState σ), RecInv s →
      (runLoop env codes fuel s).details.Pairwise (fun a b => a.step < b.step) := by
  intro fuel
  induction fuel with
  | zero => intro s hinv; simpa [runLoop] using hinv.2
  | succ f ih =>
    intro s hinv
    have hspec := loopIter_spec env codes s hinv.1 hinv.2
    unfold runLoop
    dsimp only
    split
    · exact hspec.2
    · next hstop =>
      exact ih _ ⟨hspec.1 (by simpa using hstop), hspec.2⟩

theorem submitPipeline_now_mono (env : Env σ) (hm : TimeMono env)
    (code : Option String) (step : Nat) (p : σ) :
    env.now p ≤ env.now (submitPipeline env code step p).1 := by
  obtain ⟨hw, hb, hs, he, hc, ha⟩ := hm
  unfold submitPipeline
  calc env.now p ≤ env.now (env.sweep p step) := hs p step
    _ ≤ env.now (env.waitMs (env.sweep p step) 50) := hw _ 50
    _ ≤ env.now (env.enterCode (env.waitMs (env.sweep p step) 50) code) := he _ code
    _ ≤ env.now (env.clickSubmit (env.enterCode (env.waitMs (env.sweep p step) 50) code)) :=
        hc _
    _ ≤ _ := ha _ step

theorem loopIter_now_mono (env : Env σ) (hm : TimeMono env)
    (codes : List String) (s : LoopState σ) :
    env.now s.page ≤ env.now (loopIter env codes s).1.page := by
  obtain ⟨hw, hb, hsw, he, hc, ha⟩ := hm
  have hpipe := submitPipeline_now_mono env ⟨hw, hb, hsw, he, hc, ha⟩
  unfold loopIter
  dsimp only
  repeat' split
  all_goals first
    | exact le_refl _
    | exact hw _ _
    | exact le_trans (hb _) (hw _ _)
    | (exact le_trans (le_trans (hb _) (hw _ _)) (hpipe _ _ _))
    | exact hpipe _ _ _

theorem runLoop_now_mono (env : Env σ) (hm : TimeMono env) (codes : List String) :
    ∀ (fuel : Nat) (s : LoopState σ),
      env.now s.page ≤ env.now (runLoop env codes fuel s).page := by
  intro fuel
  induction fuel with
  | zero => intro s; simp [runLoop]
  | succ f ih =>
    intro s
    have hit := loopIter_now_mono env hm codes s
    unfold runLoop
    dsimp only
    split
    · exact hit
    · exact le_trans hit (ih (loopIter env codes s).1)

/-- A truthy (present and non-empty) table entry is returned unchanged by
the code lookup. -/
theorem lookup_of_nonempty (codes : List String) (i : Nat) (c : String)
    (hc : codes[i]? = some c) (hne : c ≠ "") :
    codeLookup codes i = some c := by
  simp [codeLookup, truthy, hc, hne]

/-! ### Behaviour of the loop on the stuck simulated target -/

theorem stuck_url_facts : ∀ c, c < 32 →
    urlHasFinish (stuckUrl c) = false ∧ stepNumOfUrl (stuckUrl c) = some c := by decide

theorem loopIter_stuck (k : Nat) (codes : List String) (t : Nat)
    (d : List AttemptRecord) (p : Nat) (hk1 : 1 ≤ k) (hk : k ≤ 30) :
    loopIter (stuckEnv k) codes ⟨(k, t), k - 1, d, p⟩ =
      (⟨(k, t + (if k = 30 then 4375 else 3870)), k - 1, d, p + 1⟩, false) := by
  by_cases hk30 : k = 30
  · subst hk30
    have h1 : urlHasFinish (stuckUrl 30) = false := by decide
    have h2 : stepNumOfUrl (stuckUrl 30) = some 30 := by decide
    simp [loopIter, submitPipeline, stuckEnv, h1, h2]
  · have h1 := (stuck_url_facts k (by omega)).1
    have h2 := (stuck_url_facts k (by omega)).2
    have h3 : ¬ k ≤ k - 1 := by omega
    have h4 : (k == 30) = false := by rw [beq_eq_false_iff_ne]; omega
    have h5 : ¬ k < k := by omega
    simp [loopIter, submitPipeline, stuckEnv, h1, h2, h3, h4, h5, hk30]

theorem runLoop_stuck_at (k : Nat) (codes : List String) (hk1 : 1 ≤ k) (hk : k ≤ 30) :
    ∀ (fuel t : Nat) (d : List AttemptRecord) (p : Nat),
      (runLoop (stuckEnv k) codes fuel ⟨(k, t), k - 1, d, p⟩).lastStep = k - 1 := by
  intro fuel
  induction fuel with
  | zero => intro t d p; rfl
  | succ f ih =>
    intro t d p
    unfold runLoop
    dsimp only
    rw [loopIter_stuck k codes t d p hk1 hk]
    exact ih _ d (p + 1)

theorem loopIter_stuck_adv (k c : Nat) (codes : List String) (t : Nat)
    (d : List AttemptRecord) (p : Nat) (hc1 : 1 ≤ c) (hck : c < k) (hk : k ≤ 30) :
    loopIter (stuckEnv k) codes ⟨(c, t), c - 1, d, p⟩ =
      (⟨(c + 1, t + 470), c,
        d ++ [⟨c, codeLookup codes c, 470, "code_submission"⟩], p + 1⟩, false) := by
  have h1 := (stuck_url_facts c (by omega)).1
  have h2 := (stuck_url_facts c (by omega)).2
  have h3 : ¬ c ≤ c - 1 := by omega
  have h4 : (c == 30) = false := by rw [beq_eq_false_iff_ne]; omega
  simp [loopIter, submitPipeline, stuckEnv, h1, h2, h3, h4, hck]
  omega

theorem runLoop_stuck_run (k : Nat) (codes : List String) (hk : k ≤ 30) :
    ∀ (j c t : Nat) (d : List AttemptRecord) (p fuel : Nat), c + j = k → 1 ≤ c → j ≤ fuel →
      (runLoop (stuckEnv k) codes fuel ⟨(c, t), c - 1, d, p⟩).lastStep = k - 1 := by
  intro j
  induction j with
  | zero =>
    intro c t d p fuel hcj hc1 _
    have hck : c = k := by omega
    subst hck
    exact runLoop_stuck_at c codes hc1 (by omega) fuel t d p
  | succ j ih =>
    intro c t d p fuel hcj hc1 hjf
    obtain ⟨f, rfl⟩ : ∃ f, fuel = f + 1 := ⟨fuel - 1, by omega⟩
    unfold runLoop
    dsimp only
    rw [loopIter_stuck_adv k c codes t d p hc1 (by omega) hk]
    exact ih (c + 1) _ _ _ f (by omega) (by omega) (by omega)

theorem stuckEnv_timeMono (k : Nat) : TimeMono (stuckEnv k) := by
  refine ⟨?_, ?_, ?_, ?_, ?_, ?_⟩
  · intro p n; simp [stuckEnv]
  · intro p; simp [stuckEnv]
  · intro p n; simp [stuckEnv]
  · intro p c; simp [stuckEnv]
  · intro p; simp [stuckEnv]
  · intro p n
    simp only [stuckEnv]
    split <;> simp

theorem extract_blobGood : extractCodes (some blobGood) = some goodCodes := by decide

theorem runLoop_stop (env : Env σ) (codes : List String) (fuel : Nat) (s : LoopState σ)
    (h : (loopIter env codes s).2 = true) :
    runLoop env codes (fuel + 1) s = (loopIter env codes s).1 := by
  unfold runLoop
  dsimp only
  simp [h]

/-! ### Claims -/

/-- C2 counterexample: with a table of 29 codes, a request for index 35
returns nothing at all (the fallback reads the fixed index 29, which is
out of range), not the table's last entry as the claim states. -/
theorem codeFor_total_cex :
    table29.length = 29 ∧ codeLookup table29 35 = none ∧
    table29.getLast? = some ("C29") := by decide

/-- C2 (amended): the code lookup returns the entry at `stepIndex`
whenever that entry is present and non-empty; for any index beyond the
range of a 30-entry table it returns the table's last entry.  (The
original claim fails because the fallback reads the fixed index 29 rather
than the last index: on shorter tables an out-of-range request yields
nothing, and an empty in-range entry is skipped.) -/
theorem codeFor_lookup_spec :
    (∀ (codes : List String) (i : Nat) (c : String),
        codes[i]? = some c → c ≠ "" → codeLookup codes i = some c) ∧
    (∀ (codes : List String) (i : Nat), codes.length = 30 → 30 ≤ i →
        codeLookup codes i = codes.getLast?) := by
  constructor
  · exact lookup_of_nonempty
  · intro codes i hlen hi
    have hnone : codes[i]? = none := List.getElem?_eq_none (by omega)
    have h29 : codes.getLast? = codes[29]? := by
      rw [List.getLast?_eq_getElem?, hlen]
    simp [codeLookup, truthy, hnone, h29]

/-- C2 witness: the amended lookup property at concrete inputs. -/
theorem codeFor_lookup_spec_witness :
    codeLookup ["A1", "B2"] 1 = some ("B2") ∧
    codeLookup table30 41 = table30.getLast? :=
  ⟨codeFor_lookup_spec.1 ["A1", "B2"] 1 "B2" (by decide) (by decide),
   codeFor_lookup_spec.2 table30 41 (by decide) (by decide)⟩

/-- C10: an in-range but empty table entry is not returned by the code
lookup; presence is tested by JavaScript truthiness, so the lookup falls
back to the entry at the fixed index 29. -/
theorem falsy_entry_fallback (codes : List String) (i : Nat)
    (h1 : i < codes.length) (h2 : codes[i]? = some ("")) :
    codeLookup codes i = codes[29]? := by
  simp [codeLookup, truthy, h2]

/-- C10 witness: the empty first entry of a 30-entry table is skipped in
favour of the entry at index 29. -/
theorem falsy_entry_fallback_witness :
    0 < tableE.length ∧ tableE[0]? = some ("") ∧ tableE[29]? = some ("E29") ∧
    codeLookup tableE 0 = tableE[29]? :=
  ⟨by decide, by decide, by decide,
   falsy_entry_fallback tableE 0 (by decide) (by decide)⟩

/-- C5 counterexample: a valid encrypted session blob whose decoded code
list has the empty string at position 0; the lookup at the in-range
index 0 does not return that plaintext entry. -/
theorem extract_then_lookup_cex :
    extractCodes (some blobEmptyFirst) = some ["", "DEF456"] ∧
    codeLookup ["", "DEF456"] 0 ≠ (["", "DEF456"] : List String)[0]? := by decide

/-- C5 (amended): for every valid encrypted session blob, extracting the
code table and then looking up an in-range index `i` whose decoded code
is non-empty returns exactly the plaintext code at position `i` of the
decoded code list.  (The original claim fails at empty-string entries,
which the truthiness test of the lookup skips.) -/
theorem extract_then_lookup (blob : String) (codes : List String) (i : Nat) (c : String)
    (hex : extractCodes (some blob) = some codes)
    (hc : codes[i]? = some c) (hne : c ≠ "") :
    codeLookup codes i = some c :=
  lookup_of_nonempty codes i c hc hne

/-- C5 witness: extraction of a concrete blob followed by an in-range
lookup yields the plaintext code. -/
theorem extract_then_lookup_witness :
    extractCodes (some blobGood) = some goodCodes ∧
    codeLookup goodCodes 0 = some ("ABC123") :=
  ⟨extract_blobGood,
   extract_then_lookup blobGood goodCodes 0 "ABC123" extract_blobGood
     (by decide) (by decide)⟩

/-- C4 counterexample: with an absent session blob the run aborts, but
contrary to the claim nothing is flushed on the way out: neither the run
summary nor the screenshot is written. -/
theorem decode_fatal_cex :
    (runSolver noBlobEnv ()).exitStatus = 1 ∧
    (runSolver noBlobEnv ()).statsWritten = false ∧
    (runSolver noBlobEnv ()).screenshotWritten = false := by decide

/-- C4 (amended): if decoding the session blob fails (blob absent,
undecodable, or the decoded text not parseable structured data), the run
aborts immediately with a fatal error, and no partial run summary or
screenshot is flushed on the way out (the exception propagates past the
output-writing code, which has no try/finally). -/
theorem decode_fatal_aborts {σ : Type} (env : Env σ) (p0 : σ)
    (h : extractCodes (env.getSession (afterStartup env p0)) = none) :
    runSolver env p0 = ⟨none, false, false, 1⟩ := by
  simp [runSolver, h]

/-- C4 witness: the abort-without-flush behaviour at a concrete
environment with no stored session blob. -/
theorem decode_fatal_aborts_witness :
    runSolver noBlobEnv () = ⟨none, false, false, 1⟩ :=
  decode_fatal_aborts noBlobEnv () (by decide)

/-- C7: whenever the observed location carries the terminal marker at the
head of an iteration, the engine records the final step as complete
(`stepsCompleted` becomes the total step count 30 and `success` becomes
true) and exits the loop at that iteration. -/
theorem finished_state_success {σ : Type} (env : Env σ) (codes : List String)
    (fuel : Nat) (s : LoopState σ) (startT : Nat)
    (hfin : urlHasFinish (env.url s.page) = true) :
    runLoop env codes (fuel + 1) s = { s with lastStep := 30, polls := s.polls + 1 } ∧
    (mkStats env startT (runLoop env codes (fuel + 1) s)).success = true ∧
    (mkStats env startT (runLoop env codes (fuel + 1) s)).stepsCompleted = 30 := by
  have h : runLoop env codes (fuel + 1) s =
      { s with lastStep := 30, polls := s.polls + 1 } := by
    have hstop : (loopIter env codes s).2 = true := by simp [loopIter, hfin]
    rw [runLoop_stop env codes fuel s hstop]
    simp [loopIter, hfin]
  exact ⟨h, by simp [mkStats, h], by simp [mkStats, h]⟩

/-- C7 witness: the finished-location behaviour on a concrete terminal
environment. -/
theorem finished_state_success_witness :
    runLoop finishEnv goodCodes 5 ⟨(), 0, [], 0⟩ = ⟨(), 30, [], 1⟩ ∧
    (mkStats finishEnv 0 (runLoop finishEnv goodCodes 5 ⟨(), 0, [], 0⟩)).success = true ∧
    (mkStats finishEnv 0 (runLoop finishEnv goodCodes 5 ⟨(), 0, [], 0⟩)).stepsCompleted = 30 :=
  finished_state_success finishEnv goodCodes 4 ⟨(), 0, [], 0⟩ 0 (by decide)

/-- C8: the engine never reprocesses a completed step: in every run the
step indices of the logged AttemptRecords are pairwise distinct, and on
the simulated location sequence step5 -> step5 -> step6 exactly one
AttemptRecord is produced for step 5. -/
theorem no_step_reprocessing :
    (∀ {σ : Type} (env : Env σ) (codes : List String) (p : σ) (fuel : Nat),
        ((runLoop env codes fuel ⟨p, 0, [], 0⟩).details).Pairwise
          (fun a b => a.step ≠ b.step)) ∧
    ((runLoop seqEnv goodCodes 120 ⟨(0, 0), 0, [], 0⟩).details.filter
        (fun r => r.step == 5)).length = 1 := by
  constructor
  · intro σ env codes p fuel
    have h := runLoop_pairwise env codes fuel ⟨p, 0, [], 0⟩
      ⟨(fun r hr => nomatch hr), List.Pairwise.nil⟩
    exact h.imp Nat.ne_of_lt
  · decide

/-- C9: the control loop always terminates within the fixed iteration
budget: it performs at most `fuel` polls from any state, and at most 120
polls from the initial state with the budget of the source. -/
theorem iteration_budget_bound :
    (∀ {σ : Type} (env : Env σ) (codes : List String) (fuel : Nat) (s : LoopState σ),
        (runLoop env codes fuel s).polls ≤ s.polls + fuel) ∧
    (∀ {σ : Type} (env : Env σ) (codes : List String) (p : σ),
        (runLoop env codes 120 ⟨p, 0, [], 0⟩).polls ≤ 120) := by
  constructor
  · intro σ env codes fuel s
    exact runLoop_polls_le env codes fuel s
  · intro σ env codes p
    simpa using runLoop_polls_le env codes 120 ⟨p, 0, [], 0⟩

/-- C1 counterexample: on a simulated target that reaches the terminal
location immediately after the bypass navigation mutation, the single
AttemptRecord produced carries the method tag history.pushState, not
router_bypass as the claim states. -/
theorem bypass_method_cex :
    ((runSolver bypassEnvC (false, 0)).stats.map fun st =>
        st.stepDetails.map fun r => r.method) = some ["history.pushState"] ∧
    ((runSolver bypassEnvC (false, 0)).stats.map fun st => st.success) = some true ∧
    "history.pushState" ≠ "router_bypass" := by decide

/-- C1 (amended): when the designated terminal-bypass step 30 is observed
and the simulated target reaches the terminal location immediately after
the bypass navigation mutation, the engine appends an AttemptRecord for
step 30 whose method tag is the literal history.pushState (the method
field of every AttemptRecord is one of code_submission or
history.pushState), with the sentinel N/A (router bypass) in place of a
code, and the run terminates with success = true. -/
theorem bypass_record_spec {σ : Type} (env : Env σ) (p0 : σ) (codes : List String)
    (hex : extractCodes (env.getSession (afterStartup env p0)) = some codes)
    (hnf : urlHasFinish (env.url (afterStartup env p0)) = false)
    (hs : stepNumOfUrl (env.url (afterStartup env p0)) = some 30)
    (hbf : urlHasFinish
        (env.url (env.waitMs (env.bypassNav (afterStartup env p0)) 500)) = true) :
    ∃ st, (runSolver env p0).stats = some st ∧
      st.success = true ∧ st.stepsCompleted = 30 ∧
      st.stepDetails =
        [⟨30, some ("N/A (router bypass)"),
          env.now (env.waitMs (env.bypassNav (afterStartup env p0)) 500) -
            env.now (afterStartup env p0), "history.pushState"⟩] := by
  have hstop : (loopIter env codes ⟨afterStartup env p0, 0, [], 0⟩).2 = true := by
    simp [loopIter, hnf, hs, hbf]
  have hit1 : (loopIter env codes ⟨afterStartup env p0, 0, [], 0⟩).1 =
      ⟨env.waitMs (env.bypassNav (afterStartup env p0)) 500, 30,
       [⟨30, some ("N/A (router bypass)"),
         env.now (env.waitMs (env.bypassNav (afterStartup env p0)) 500) -
           env.now (afterStartup env p0), "history.pushState"⟩], 1⟩ := by
    simp [loopIter, hnf, hs, hbf]
  have hrun : runLoop env codes 120 ⟨afterStartup env p0, 0, [], 0⟩ =
      (loopIter env codes ⟨afterStartup env p0, 0, [], 0⟩).1 :=
    runLoop_stop env codes 119 ⟨afterStartup env p0, 0, [], 0⟩ hstop
  refine ⟨mkStats env (env.now p0) (runLoop env codes 120 ⟨afterStartup env p0, 0, [], 0⟩),
    ?_, ?_, ?_, ?_⟩
  · simp only [runSolver, hex]
  · simp [mkStats, hrun, hit1]
  · simp [mkStats, hrun, hit1]
  · simp [mkStats, hrun, hit1]

/-- C1 witness: the amended bypass behaviour on the concrete simulated
bypass target. -/
theorem bypass_record_spec_witness :
    ∃ st, (runSolver bypassEnvC (false, 0)).stats = some st ∧
      st.success = true ∧ st.stepsCompleted = 30 ∧
      st.stepDetails =
        [⟨30, some ("N/A (router bypass)"),
          bypassEnvC.now (bypassEnvC.waitMs (bypassEnvC.bypassNav
            (afterStartup bypassEnvC (false, 0))) 500) -
            bypassEnvC.now (afterStartup bypassEnvC (false, 0)), "history.pushState"⟩] :=
  bypass_record_spec bypassEnvC (false, 0) goodCodes extract_blobGood
    (by decide) (by decide) (by decide)

/-- C3: the claim that a failed run (iteration budget exhausted without
reaching the terminal marker) exits with a non-zero status is violated by
the code: the async main function completes normally without ever setting
a process exit code, so the process exits 0 even though success = false.
Evaluated here on the simulated target stuck at step 1. -/
theorem exit_status_zero_on_failure :
    ∃ st, (runSolver (stuckEnv 1) (1, 0)).stats = some st ∧
      st.success = false ∧ (runSolver (stuckEnv 1) (1, 0)).exitStatus = 0 := by
  have hstart : afterStartup (stuckEnv 1) (1, 0) = (1, 0) := rfl
  have hgs : (stuckEnv 1).getSession (1, 0) = some blobGood := rfl
  have hrun := runLoop_stuck_run 1 goodCodes (by omega) 0 1 0 [] 0 120
    (by omega) (by omega) (by omega)
  norm_num at hrun
  simp only [runSolver, hstart, hgs, extract_blobGood]
  refine ⟨_, rfl, ?_, trivial⟩
  simp only [mkStats]
  rw [hrun]
  rfl

/-- C6: on a simulated target that never advances past step k within the
iteration budget, the engine terminates with success = false and
stepsCompleted = k - 1, and a run summary is still produced with a valid
timestamp pair and a non-negative total duration. -/
theorem stuck_target_summary (k t0 : Nat) (hk1 : 1 ≤ k) (hk : k ≤ 30) :
    ∃ st : RunStats,
      (runSolver (stuckEnv k) (1, t0)).stats = some st ∧
      (runSolver (stuckEnv k) (1, t0)).statsWritten = true ∧
      st.success = false ∧
      st.stepsCompleted = k - 1 ∧
      st.startTime ≤ st.endTime ∧
      0 ≤ st.totalDurationMs := by
  have hstart : afterStartup (stuckEnv k) (1, t0) = (1, t0) := rfl
  have hgs : (stuckEnv k).getSession (1, t0) = some blobGood := rfl
  have hrun := runLoop_stuck_run k goodCodes hk (k - 1) 1 t0 [] 0 120
    (by omega) (by omega) (by omega)
  norm_num at hrun
  have hmono : (stuckEnv k).now (1, t0) ≤
      (stuckEnv k).now (runLoop (stuckEnv k) goodCodes 120 ⟨(1, t0), 0, [], 0⟩).page :=
    runLoop_now_mono (stuckEnv k) (stuckEnv_timeMono k) goodCodes 120 ⟨(1, t0), 0, [], 0⟩
  simp only [runSolver, hstart, hgs, extract_blobGood]
  refine ⟨_, rfl, trivial, ?_, ?_, ?_, ?_⟩
  · simp only [mkStats]
    rw [hrun, beq_eq_false_iff_ne]
    omega
  · simp only [mkStats]
    exact hrun
  · simp only [mkStats]
    exact hmono
  · simp only [mkStats]
    have h := hmono
    omega

/-- C6 witness: the stuck-target summary at k = 5 with start clock 7. -/
theorem stuck_target_summary_witness :
    ∃ st : RunStats,
      (runSolver (stuckEnv 5) (1, 7)).stats = some st ∧
      (runSolver (stuckEnv 5) (1, 7)).statsWritten = true ∧
      st.success = false ∧
      st.stepsCompleted = 4 ∧
      st.startTime ≤ st.endTime ∧
      0 ≤ st.totalDurationMs :=
  stuck_target_summary 5 7 (by decide) (by decide)

end Solver
